import Mathlib

/-!
Verification development for the FiscalFundamentals dashboard's financial
tag/label resolution engine.

The TypeScript source is shallowly embedded:

* JS numbers carried in the fact maps are modelled as rationals (ℚ); the
  identities at stake are exact linear equations, which is what the spec means
  up to floating-point tolerance.
* A JS `Record<string, ...>` with its insertion order is modelled as an
  association list `List (String × ReportValue)`; `for (const key in map)`
  iterates that list in order.
* JS `undefined` and `null` are both modelled as `Option.none`.
* The regular-expression matches of the share-count extractor are modelled by
  a token-sequence matcher (`matchToks`).  In every pattern of the source the
  character class of a greedy run (`[\d,]+`, `\s+`, `\s*`) is disjoint from
  the first character of the following token, so JS backtracking never
  shortens a run: maximal-munch per start position, scanning start positions
  left to right, is exactly the JS leftmost-match semantics for these
  patterns.
-/

namespace Fiscal

/-- A fact as stored in a report map: `{ label?: string; value?: number }`. -/
structure ReportValue where
  label : Option String
  value : Option ℚ
deriving DecidableEq

/-- A report's fact map: `Record<string, ReportItem>`, keys with their
insertion order. -/
abbrev FactMap := List (String × ReportValue)

/-- One period report: `{ date: string; months: number; map: ... }`. -/
structure IncomeReport where
  date : String
  months : Int
  map : FactMap
deriving DecidableEq

/-! ### Character-level helpers -/

/-- The whitespace characters relevant to the source's `\s` and `trim`:
space, tab, LF, VT, FF, CR and the non-breaking space. -/
def isWsChar (c : Char) : Bool :=
  c = ' ' || c = Char.ofNat 9 || c = Char.ofNat 10 || c = Char.ofNat 11 ||
  c = Char.ofNat 12 || c = Char.ofNat 13 || c = Char.ofNat 160

/-- Whether `l` begins with `pre`. -/
def startsWithChars : List Char → List Char → Bool
  | _, [] => true
  | [], _ :: _ => false
  | c :: cs, d :: ds => c = d && startsWithChars cs ds

/-- Whether `needle` occurs as a contiguous substring of `hay`
(JS `String.includes`). -/
def containsChars (hay needle : List Char) : Bool :=
  match hay with
  | [] => needle.isEmpty
  | _ :: t => startsWithChars hay needle || containsChars t needle

/-- Lowercase a character sequence (the labels and keys in play are ASCII
plus curly quotes, on which JS `toLowerCase` agrees with `Char.toLower`). -/
def lcChars (s : List Char) : List Char := s.map Char.toLower

/-- The source's `.replace(/[’‘]/g, "'")`: straighten curly single quotes. -/
def straightenQuote (c : Char) : Char :=
  if c = Char.ofNat 8217 || c = Char.ofNat 8216 then Char.ofNat 39 else c

/-- The source's `.replace(/\s+/g, ' ')`: collapse every maximal whitespace
run to a single space. -/
def collapseWs : List Char → List Char
  | [] => []
  | [c] => [if isWsChar c then ' ' else c]
  | c :: d :: rest =>
    if isWsChar c && isWsChar d then collapseWs (d :: rest)
    else (if isWsChar c then ' ' else c) :: collapseWs (d :: rest)

/-- JS `String.trim`: drop whitespace at both ends. -/
def trimChars (l : List Char) : List Char :=
  ((l.dropWhile isWsChar).reverse.dropWhile isWsChar).reverse

/-- The `normalize` helper inside `strictGet` (dashboard/page.tsx):
lowercase, straighten curly quotes, collapse whitespace, trim. -/
def normalizeLabel (s : String) : List Char :=
  trimChars (collapseWs ((lcChars s.data).map straightenQuote))

/-! ### strictGet (exact-label resolution, dashboard/page.tsx lines 586-603) -/

/-- Whether a fact participates in a `strictGet` scan for the given
normalized targets: its label must be present and non-empty (`if (!label)
continue`) and normalize to one of the targets. -/
def hasTargetB (targets : List (List Char)) (item : ReportValue) : Bool :=
  match item.label with
  | none => false
  | some lab => if lab = "" then false else targets.contains (normalizeLabel lab)

/-- The `for (const key in map)` loop of `strictGet`: first fact, in map
order, whose normalized label is among the targets; its `value` is returned
as-is (it may be absent). -/
def strictGetAux (targets : List (List Char)) : FactMap → Option ℚ
  | [] => none
  | p :: rest =>
    if hasTargetB targets p.2 then p.2.value else strictGetAux targets rest

/-- Source `strictGet` from dashboard/page.tsx: normalize the candidate labels, then
scan the facts in map order. -/
def strictGet (m : FactMap) (labels : List String) : Option ℚ :=
  strictGetAux (labels.map normalizeLabel) m

/-- Modelled from the spec (§4.2 `resolveByExactLabel`), for comparison with
the source's `strictGet`: try the candidate labels in priority order, and for
each candidate return the value of the first fact whose normalized label
equals it. -/
def strictGetSpecModel (m : FactMap) : List String → Option ℚ
  | [] => none
  | l :: ls =>
    match m.find? (fun p => hasTargetB [normalizeLabel l] p.2) with
    | some p => p.2.value
    | none => strictGetSpecModel m ls

/-! ### getTagValue (src/app/lib/xbrl.ts) -/

/-- Record indexing `map[k]`: the unique entry with exactly key `k`
(first in insertion order if duplicated). -/
def recordLookup (m : FactMap) (k : String) : Option ReportValue :=
  (m.find? (fun p => p.1 == k)).map (fun p => p.2)

/-- Source `getTagValue` from xbrl.ts: first tag, in priority order, whose entry
(or whose `defref_`-prefixed entry) carries a numeric value. -/
def getTagValue (m : FactMap) : List String → Option ℚ
  | [] => none
  | t :: ts =>
    match (recordLookup m t).bind ReportValue.value with
    | some v => some v
    | none =>
      match (recordLookup m ("defref_" ++ t)).bind ReportValue.value with
      | some v => some v
      | none => getTagValue m ts

/-! ### extractMetrics (dashboard/page.tsx lines 43-116) -/

/-- The revenue concept-identifier priority list of `extractMetrics`. -/
def revenueKeys : List String :=
  ["axp_TotalRevenuesNetOfInterestExpenseAfterProvisionsForLosses",
   "us-gaap_RevenuesNetOfInterestExpense",
   "us-gaap_Revenues",
   "us-gaap_RevenueFromContractWithCustomerExcludingAssessedTax",
   "us-gaap_SalesRevenueNet",
   "us-gaap_SalesRevenueServicesNet"]

/-- The net-income concept-identifier priority list of `extractMetrics`. -/
def incomeKeys : List String :=
  ["us-gaap_NetIncomeLoss",
   "us-gaap_ProfitLoss",
   "us-gaap_NetIncomeLossAvailableToCommonStockholdersBasic",
   "ifrs-full_ProfitLoss",
   "ifrs-full_ProfitLossAttributableToOwnersOfParent"]

/-- The revenue keyword list of the fuzzy label fallback. -/
def revenueKeywords : List String :=
  ["total net revenue", "net sales", "revenue", "total revenues"]

/-- The net-income keyword list of the fuzzy label fallback. -/
def incomeKeywords : List String :=
  ["net income applicable", "net income", "net earnings", "net profit"]

/-- The step `key.toLowerCase().match(/defref_(.*)/)`: if `defref_` occurs in the
lowercased key, everything after its first occurrence; else the lowercased
key. -/
def dropAfterMarker (marker : List Char) : List Char → Option (List Char)
  | [] => none
  | c :: cs =>
    if startsWithChars (c :: cs) marker then some ((c :: cs).drop marker.length)
    else dropAfterMarker marker cs

/-- The key normalization of `extractMetrics`. -/
def normKeyChars (k : String) : List Char :=
  let lk := lcChars k.data
  (dropAfterMarker ("defref_".data) lk).getD lk

/-- The `normalizedEntries` view: every entry of the raw map with its key normalized,
preserving map order. -/
def normEntries (m : FactMap) : List (List Char × ReportValue) :=
  m.map (fun p => (normKeyChars p.1, p.2))

/-- The `findByKeys` helper: for each priority key in order, the first normalized entry
with exactly that key; the entry wins on key presence alone, numeric or
not. -/
def findByKeys (entries : List (List Char × ReportValue)) :
    List String → Option ReportValue
  | [] => none
  | k :: ks =>
    match entries.find? (fun e => e.1 == lcChars k.data) with
    | some e => some e.2
    | none => findByKeys entries ks

/-- Whether a fact's lowercased label (empty when absent) contains any of the
keywords. -/
def labelHasAny (keywords : List String) (item : ReportValue) : Bool :=
  let lab := lcChars (item.label.getD "").data
  keywords.any (fun kw => containsChars lab kw.data)

/-- The fuzzy label fallback loop: on the first fact (map order) whose label
contains a keyword, take its value — keeping `current` when the value is
absent — and stop; `current` when no label matches. -/
def fallbackScan (keywords : List String) (current : ℚ) :
    List (List Char × ReportValue) → ℚ
  | [] => current
  | e :: rest =>
    if labelHasAny keywords e.2 then e.2.value.getD current
    else fallbackScan keywords current rest

/-- One metric of `extractMetrics`: concept stage (0 default), then the
keyword fallback exactly when the concept stage left 0 (`if (!revenue)`). -/
def extractOneMetric (entries : List (List Char × ReportValue))
    (keys keywords : List String) : ℚ :=
  let v0 : ℚ :=
    match findByKeys entries keys with
    | some item => item.value.getD 0
    | none => 0
  if v0 = 0 then fallbackScan keywords v0 entries else v0

/-- Source `extractMetrics` from dashboard/page.tsx: `(revenue, netIncome)`. -/
def extractMetrics (rawMap : FactMap) : ℚ × ℚ :=
  (extractOneMetric (normEntries rawMap) revenueKeys revenueKeywords,
   extractOneMetric (normEntries rawMap) incomeKeys incomeKeywords)

/-- Modelled from the spec (§4.2): the concept stage returns the first
candidate present **with a numeric value** (also under the `defref_` form,
via the normalized-key view). -/
def findByKeysNumeric (entries : List (List Char × ReportValue)) :
    List String → Option ℚ
  | [] => none
  | k :: ks =>
    match entries.find? (fun e => e.1 == lcChars k.data && e.2.value.isSome) with
    | some e => e.2.value
    | none => findByKeysNumeric entries ks

/-- Modelled from the spec (§4.2): the keyword fallback returns the first
keyword-matching fact's value, an explicit sentinel when absent. -/
def fallbackSpecModel (keywords : List String)
    (entries : List (List Char × ReportValue)) : Option ℚ :=
  (entries.find? (fun e => labelHasAny keywords e.2)).bind (fun e => e.2.value)

/-- Modelled from the spec (§4.2 and §3): one metric resolves via the
concept-identifier priority list (first candidate with a numeric value);
if unresolved or zero, the keyword fallback; unresolved stays an explicit
sentinel, never a default zero. -/
def extractOneMetricSpecModel (entries : List (List Char × ReportValue))
    (keys keywords : List String) : Option ℚ :=
  match findByKeysNumeric entries keys with
  | some v => if v = 0 then fallbackSpecModel keywords entries else some v
  | none => fallbackSpecModel keywords entries

/-- Modelled from the spec: `extractMetrics` with explicit unresolved
sentinels. -/
def extractMetricsSpecModel (rawMap : FactMap) : Option ℚ × Option ℚ :=
  (extractOneMetricSpecModel (normEntries rawMap) revenueKeys revenueKeywords,
   extractOneMetricSpecModel (normEntries rawMap) incomeKeys incomeKeywords)

/-! ### Balance-sheet derivation (dashboard/page.tsx lines 653-699) -/

/-- The exact labels used for total assets. -/
def assetLabels : List String := ["Total assets", "Assets"]

/-- The concept tags used for explicit equity. -/
def equityTags : List String :=
  ["us-gaap_StockholdersEquity",
   "us-gaap_StockholdersEquityIncludingPortionAttributableToNoncontrollingInterest"]

/-- The concept tag used for explicit liabilities. -/
def liabilityTags : List String := ["us-gaap_Liabilities"]

/-- The balance-sheet derivation of dashboard/page.tsx: resolve assets,
equity and liabilities independently; derive equity from assets and
liabilities when the explicit equity line is missing; take explicit
liabilities, else derive them from assets and (possibly derived) equity.
Result: `(totalAssets, totalLiabilities, totalEquity)`. -/
def balanceMetrics (m : FactMap) : Option ℚ × Option ℚ × Option ℚ :=
  let totalAssets := strictGet m assetLabels
  let equity0 := getTagValue m equityTags
  let explicitLiabilities := getTagValue m liabilityTags
  let totalEquity :=
    match equity0, totalAssets, explicitLiabilities with
    | none, some a, some l => some (a - l)
    | _, _, _ => equity0
  let totalLiabilities :=
    match explicitLiabilities with
    | some l => some l
    | none =>
      match totalAssets, totalEquity with
      | some a, some e => some (a - e)
      | _, _ => none
  (totalAssets, totalLiabilities, totalEquity)

/-! ### Ratio calculators (dashboard/page.tsx lines 440, 459-464, 707-712) -/

/-- Net profit margin: `revenue ? (netIncome / revenue) * 100 : null`. -/
def netProfitMargin (revenue netIncome : ℚ) : Option ℚ :=
  if revenue = 0 then none else some (netIncome / revenue * 100)

/-- Effective tax rate: both operands numeric and a non-zero pre-tax income,
else null. -/
def effectiveTaxRate (incomeTaxVal preTaxIncomeVal : Option ℚ) : Option ℚ :=
  match incomeTaxVal, preTaxIncomeVal with
  | some t, some p => if p = 0 then none else some (t / p * 100)
  | _, _ => none

/-- Book value per share: equity and share count numeric, share count
positive, else null; preferred equity defaults to 0 (`?? 0`). -/
def bookValuePerShare (totalEquity preferredEquity sharesOutstanding : Option ℚ) :
    Option ℚ :=
  match totalEquity, sharesOutstanding with
  | some e, some s =>
    if 0 < s then some ((e - preferredEquity.getD 0) / s) else none
  | _, _ => none

/-! ### Share-count extractor (dashboard/page.tsx lines 605-651) -/

/-- A digit or a thousands-separator comma: the `[\d,]` class. -/
def isNumChar (c : Char) : Bool := c.isDigit || c = ','

/-- A token of the share-count regular expressions. -/
inductive STok where
  | num
  | ws
  | wsOpt
  | lit (s : List Char)
deriving DecidableEq

/-- Match a token sequence at the start of `s`, returning the `num` captures
in order.  Greedy maximal-munch per run; see the module comment for why this
coincides with JS backtracking on the patterns involved. -/
def matchToks : List STok → List Char → Option (List (List Char))
  | [], _ => some []
  | STok.num :: ts, s =>
    let run := s.takeWhile isNumChar
    if run.isEmpty then none
    else (matchToks ts (s.drop run.length)).map (fun caps => run :: caps)
  | STok.ws :: ts, s =>
    let run := s.takeWhile isWsChar
    if run.isEmpty then none
    else matchToks ts (s.drop run.length)
  | STok.wsOpt :: ts, s => matchToks ts (s.dropWhile isWsChar)
  | STok.lit l :: ts, s =>
    if startsWithChars s l then matchToks ts (s.drop l.length) else none

/-- Leftmost match: try every start position left to right. -/
def searchToks (toks : List STok) : List Char → Option (List (List Char))
  | [] => matchToks toks []
  | c :: cs =>
    match matchToks toks (c :: cs) with
    | some caps => some caps
    | none => searchToks toks cs

/-- Pattern 1: `([\d,]+)\s+and\s+([\d,]+)\s+shares issued and outstanding`. -/
def pat1 : List STok :=
  [STok.num, STok.ws, STok.lit ("and".data), STok.ws, STok.num, STok.ws,
   STok.lit ("shares issued and outstanding".data)]

/-- Pattern 2: `([\d,]+)\s+shares issued and outstanding\s+as of`. -/
def pat2 : List STok :=
  [STok.num, STok.ws, STok.lit ("shares issued and outstanding".data),
   STok.ws, STok.lit ("as of".data)]

/-- Pattern 3: `([\d,]+)\s+shares issued and outstanding`. -/
def pat3 : List STok :=
  [STok.num, STok.ws, STok.lit ("shares issued and outstanding".data)]

/-- Pattern 5: `outstanding:\s*([\d,]+)\s+shares`. -/
def pat5 : List STok :=
  [STok.lit ("outstanding:".data), STok.wsOpt, STok.num, STok.ws,
   STok.lit ("shares".data)]

/-- First match of pattern 1 with its two captures. -/
def matchP1 (s : List Char) : Option (List Char × List Char) :=
  match searchToks pat1 s with
  | some (c1 :: c2 :: _) => some (c1, c2)
  | _ => none

/-- First match of pattern 2 with its capture. -/
def matchP2 (s : List Char) : Option (List Char) :=
  match searchToks pat2 s with
  | some (c :: _) => some c
  | _ => none

/-- First match of pattern 3 with its capture. -/
def matchP3 (s : List Char) : Option (List Char) :=
  match searchToks pat3 s with
  | some (c :: _) => some c
  | _ => none

/-- First match of pattern 5 with its capture. -/
def matchP5 (s : List Char) : Option (List Char) :=
  match searchToks pat5 s with
  | some (c :: _) => some c
  | _ => none

/-- The step `parseInt(capture.replace(/,/g, ''), 10)`: strip the commas, then parse
the leading digit run; `NaN` (none) when no digit leads. -/
def parseNum (capture : List Char) : Option ℕ :=
  let ds := (capture.filter (fun c => !(c = ','))).takeWhile Char.isDigit
  if ds.isEmpty then none
  else some (ds.foldl (fun acc c => acc * 10 + (c.toNat - 48)) 0)

/-- Replace non-breaking spaces and lowercase (the `/i` regex flag and the
explicit `toLowerCase` calls). -/
def cleanLower (lab : String) : List Char :=
  (lab.data.map (fun c => if c = Char.ofNat 160 then ' ' else c)).map Char.toLower

/-- The `in shares` marker test (`/in shares/i.test(cleanLabel)`). -/
def inSharesFlag (lab : String) : Bool :=
  containsChars (cleanLower lab) ("in shares".data)

/-- Apply the filer-convention scaling: unscaled under an explicit
`in shares` marker, else times one million.  (Computed in ℕ and cast, which
keeps the definition kernel-evaluable; `shareScale_eq` restates it over
ℚ.) -/
def shareScale (inSh : Bool) (n : ℕ) : ℚ :=
  ((if inSh then n else n * 1000000 : ℕ) : ℚ)

/-- The per-label body of `extractSharesOutstanding`: none when the label is
absent/empty or no pattern applies (continue scanning); `some r` when a
pattern fired, `r` being the returned value (null on parse failure). -/
def shareFromItem (item : ReportValue) : Option (Option ℚ) :=
  match item.label with
  | none => none
  | some lab =>
    if lab = "" then none
    else
      let lc := cleanLower lab
      let inSh := inSharesFlag lab
      match matchP1 lc with
      | some (c1, c2) =>
        some (match parseNum c1, parseNum c2 with
              | some n1, some n2 => some (shareScale inSh (max n1 n2))
              | _, _ => none)
      | none =>
        match matchP2 lc with
        | some c => some ((parseNum c).map (shareScale inSh))
        | none =>
          match (if containsChars lc ("authorized".data) then none
                 else matchP3 lc) with
          | some c => some ((parseNum c).map (shareScale inSh))
          | none =>
            if containsChars lc ("shares outstanding".data) && inSh then
              some item.value
            else
              match matchP5 lc with
              | some c => some ((parseNum c).map (shareScale inSh))
              | none => none

/-- Source `extractSharesOutstanding`: scan the facts in map order; the first label
on which any pattern fires decides the overall result (its value, or null on
parse failure); null when no label fires. -/
def extractSharesOutstanding : FactMap → Option ℚ
  | [] => none
  | p :: rest =>
    match shareFromItem p.2 with
    | some r => r
    | none => extractSharesOutstanding rest

/-! ### Report period selection (dashboard/page.tsx lines 164-184) -/

/-- JS `date.split('-')`: split on every dash; an empty string yields one
empty field. -/
def splitOnDash : List Char → List (List Char)
  | [] => [[]]
  | c :: cs =>
    if c = Char.ofNat 45 then [] :: splitOnDash cs
    else
      match splitOnDash cs with
      | [] => [[c]]
      | h :: t => (c :: h) :: t

/-- JS `parseInt(s, 10)`: skip leading whitespace, optional sign, parse the
leading digit run, `NaN` (none) when no digit follows. -/
def parseIntJS (s : List Char) : Option Int :=
  let core : List Char → Option Nat := fun ds =>
    let run := ds.takeWhile Char.isDigit
    if run.isEmpty then none
    else some (run.foldl (fun acc c => acc * 10 + (c.toNat - 48)) 0)
  match s.dropWhile isWsChar with
  | c :: rest =>
    if c = Char.ofNat 45 then (core rest).map (fun n => -(n : Int))
    else if c = Char.ofNat 43 then (core rest).map (fun n => (n : Int))
    else (core (c :: rest)).map (fun n => (n : Int))
  | [] => none

/-- The matcher inside `parsed.find(...)`: split the date on dashes and test
whether the third field parses to the target year (`parts[2]` is undefined
when absent — `parseInt(undefined)` is `NaN`, never equal). -/
def matchesYear (year : Int) (r : IncomeReport) : Bool :=
  match (splitOnDash r.date.data).get? 2 with
  | some p => parseIntJS p == some year
  | none => false

/-- The call `parsed.find(...)`: the first report, in array order, whose period-end
year matches. -/
def selectReport (reports : List IncomeReport) (year : Int) :
    Option IncomeReport :=
  reports.find? (matchesYear year)

/-- One row of `chartData`: the matched report's map — an empty map when none
matches — fed to `extractMetrics`. -/
def chartPoint (reports : List IncomeReport) (year : Int) : ℚ × ℚ :=
  extractMetrics (((selectReport reports year).map IncomeReport.map).getD [])

/-! ### Per-row statement handling (dashboard/page.tsx lines 164-184)

`JSON.parse` is a host builtin; its outcome on a statement string is either a
parsed `PeriodReport[]` or a thrown exception.  The embedding carries that
outcome as `Except Unit (List IncomeReport)` and the surrounding repository
code is translated on top of it: the source calls `JSON.parse` with no
`try`/`catch`, so a parse failure propagates. -/

/-- The body of `chartData`'s `.map(row => ...)` for one row: parse the
income statement, select the period, extract metrics.  An exception from the
parse escapes (there is no handler in the source). -/
def chartRowE (year : Int) (incomeStatement : Except Unit (List IncomeReport)) :
    Except Unit (Int × ℚ × ℚ) :=
  match incomeStatement with
  | Except.error e => Except.error e
  | Except.ok parsed =>
    let p := chartPoint parsed year
    Except.ok (year, p.1, p.2)

/-! ### Shared helper lemmas -/

theorem shareScale_eq (inSh : Bool) (n : ℕ) :
    shareScale inSh n = if inSh then (n : ℚ) else (n : ℚ) * 1000000 := by
  unfold shareScale
  cases inSh <;> push_cast <;> ring

theorem find_eq_filterHead {α : Type} (p : α → Bool) (l : List α) :
    l.find? p = (l.filter p).head? := by
  induction l with
  | nil => rfl
  | cons a t ih =>
    cases hpa : p a
    · rw [List.find?_cons_of_neg _ (by simp [hpa]),
        List.filter_cons_of_neg (by simp [hpa]), ih]
    · rw [List.find?_cons_of_pos _ hpa, List.filter_cons_of_pos hpa,
        List.head?_cons]

theorem strictGetAux_eq_find (ts : List (List Char)) (m : FactMap) :
    strictGetAux ts m =
      (m.find? (fun p => hasTargetB ts p.2)).bind (fun p => p.2.value) := by
  induction m with
  | nil => rfl
  | cons a t ih =>
    cases hpa : hasTargetB ts a.2 <;>
      simp [strictGetAux, List.find?_cons, hpa, ih]

theorem hasTargetB_congr (ts1 ts2 : List (List Char))
    (h : ∀ t, t ∈ ts1 ↔ t ∈ ts2) (item : ReportValue) :
    hasTargetB ts1 item = hasTargetB ts2 item := by
  unfold hasTargetB
  cases item.label with
  | none => rfl
  | some lab =>
    by_cases hl : lab = ""
    · simp [hl]
    · simp only [hl, if_false]
      apply Bool.coe_iff_coe.mp
      constructor
      · intro hc
        exact List.elem_eq_true_of_mem
          ((h _).mp (List.elem_iff.mp hc))
      · intro hc
        exact List.elem_eq_true_of_mem
          ((h _).mpr (List.elem_iff.mp hc))

theorem recordLookup_mem (m : FactMap) (k : String) (item : ReportValue)
    (h : recordLookup m k = some item) : ∃ p ∈ m, p.2 = item := by
  unfold recordLookup at h
  cases hf : m.find? (fun p => p.1 == k) with
  | none => rw [hf] at h; cases h
  | some p =>
    rw [hf] at h
    simp only [Option.map_some'] at h
    exact ⟨p, List.mem_of_find?_eq_some hf, by injection h⟩

theorem getTagValue_mem (m : FactMap) (tags : List String) (v : ℚ) :
    getTagValue m tags = some v → ∃ p ∈ m, p.2.value = some v := by
  induction tags with
  | nil => intro h; cases h
  | cons t ts ih =>
    intro h
    unfold getTagValue at h
    split at h
    · rename_i w hw
      cases h
      obtain ⟨item, hi, hv⟩ := Option.bind_eq_some.mp hw
      obtain ⟨p, hp, he⟩ := recordLookup_mem m t item hi
      exact ⟨p, hp, by rw [he]; exact hv⟩
    · split at h
      · rename_i w hw2
        cases h
        obtain ⟨item, hi, hv⟩ := Option.bind_eq_some.mp hw2
        obtain ⟨p, hp, he⟩ := recordLookup_mem m ("defref_" ++ t) item hi
        exact ⟨p, hp, by rw [he]; exact hv⟩
      · exact ih h

theorem strictGet_mem (m : FactMap) (labels : List String) (v : ℚ)
    (h : strictGet m labels = some v) : ∃ p ∈ m, p.2.value = some v := by
  rw [strictGet, strictGetAux_eq_find] at h
  obtain ⟨p, hp, hv⟩ := Option.bind_eq_some.mp h
  exact ⟨p, List.mem_of_find?_eq_some hp, hv⟩

theorem findByKeys_mem (entries : List (List Char × ReportValue))
    (keys : List String) (item : ReportValue)
    (h : findByKeys entries keys = some item) : ∃ e ∈ entries, e.2 = item := by
  induction keys with
  | nil => cases h
  | cons k ks ih =>
    unfold findByKeys at h
    split at h
    · rename_i e he
      cases h
      exact ⟨e, List.mem_of_find?_eq_some he, rfl⟩
    · exact ih h

theorem fallbackScan_zero_or_mem (kws : List String)
    (entries : List (List Char × ReportValue)) :
    fallbackScan kws 0 entries = 0 ∨
      ∃ e ∈ entries, e.2.value = some (fallbackScan kws 0 entries) := by
  induction entries with
  | nil => exact Or.inl rfl
  | cons e t ih =>
    by_cases hm : labelHasAny kws e.2 = true
    · cases hv : e.2.value with
      | none => exact Or.inl (by simp [fallbackScan, hm, hv])
      | some w =>
        refine Or.inr ⟨e, List.mem_cons_self e t, ?_⟩
        simp [fallbackScan, hm, hv]
    · rcases ih with h0 | ⟨e2, he2, hv2⟩
      · exact Or.inl (by simp only [fallbackScan, hm, if_false]; exact h0)
      · refine Or.inr ⟨e2, List.mem_cons_of_mem e he2, ?_⟩
        simp only [fallbackScan, hm, if_false]
        exact hv2

theorem extractOneMetric_zero_or_mem (entries : List (List Char × ReportValue))
    (keys kws : List String) :
    extractOneMetric entries keys kws = 0 ∨
      ∃ e ∈ entries, e.2.value = some (extractOneMetric entries keys kws) := by
  unfold extractOneMetric
  cases hf : findByKeys entries keys with
  | none =>
    simp only [hf, if_pos rfl]
    exact fallbackScan_zero_or_mem kws entries
  | some item =>
    cases hv : item.value with
    | none =>
      simp only [hf, hv, Option.getD_none, if_pos rfl]
      exact fallbackScan_zero_or_mem kws entries
    | some w =>
      by_cases hw : w = 0
      · subst hw
        simp only [hf, hv, Option.getD_some, if_pos rfl]
        exact fallbackScan_zero_or_mem kws entries
      · simp only [hf, hv, Option.getD_some, if_neg hw]
        obtain ⟨e, he, he2⟩ := findByKeys_mem entries keys item hf
        exact Or.inr ⟨e, he, by rw [he2]; exact hv⟩

theorem normEntries_mem (m : FactMap) (e : List Char × ReportValue)
    (he : e ∈ normEntries m) : ∃ p ∈ m, p.2 = e.2 := by
  unfold normEntries at he
  obtain ⟨p, hp, hpe⟩ := List.mem_map.mp he
  exact ⟨p, hp, by rw [← hpe]⟩

/-! ### Claim C2 (exact-label resolution order) -/

/-- A fact map in which the fact labelled `Assets` (the less-preferred
candidate) precedes the fact labelled `Total assets` (the most-preferred
candidate). -/
def cexC2 : FactMap :=
  [("k1", ⟨some "Assets", some 5⟩), ("k2", ⟨some "Total assets", some 9⟩)]

/-- Claim C2 is false on the code: with the candidate priority list
`[Total assets, Assets]`, `strictGet` returns 5 — the value of the earlier
fact, which matches only the less-preferred candidate — while the claimed
candidates-in-priority-order procedure (`strictGetSpecModel`) returns 9. -/
theorem c2_counterexample :
    strictGet cexC2 ["Total assets", "Assets"] = some 5 ∧
    strictGetSpecModel cexC2 ["Total assets", "Assets"] = some 9 ∧
    strictGet cexC2 ["Total assets", "Assets"] ≠
      strictGetSpecModel cexC2 ["Total assets", "Assets"] :=
  ⟨by decide, by decide, by decide⟩

/-- Claim C2 amended: `strictGet` normalizes labels as described (lowercase,
curly quotes straightened, whitespace collapsed, trimmed) but scans the
FACTS in map order, returning the value of the first fact whose normalized
label equals any normalized candidate; the order of the candidate list is
immaterial — only membership counts. -/
theorem c2_amended (m : FactMap) (labels : List String) :
    strictGet m labels =
      (m.find? (fun p => hasTargetB (labels.map normalizeLabel) p.2)).bind
        (fun p => p.2.value) ∧
    ∀ labels2 : List String,
      (∀ t, t ∈ labels.map normalizeLabel ↔ t ∈ labels2.map normalizeLabel) →
      strictGet m labels = strictGet m labels2 := by
  constructor
  · exact strictGetAux_eq_find _ m
  · intro labels2 hmem
    unfold strictGet
    induction m with
    | nil => rfl
    | cons p t ih =>
      simp only [strictGetAux]
      rw [hasTargetB_congr _ _ hmem p.2]
      by_cases hc : hasTargetB (labels2.map normalizeLabel) p.2 = true
      · simp [hc]
      · simp [hc, ih]

/-- Witness for the amended C2: at the concrete map `cexC2`, reversing the
candidate list leaves the result unchanged. -/
theorem c2_witness :
    strictGet cexC2 ["Total assets", "Assets"] =
      strictGet cexC2 ["Assets", "Total assets"] :=
  (c2_amended cexC2 ["Total assets", "Assets"]).2 ["Assets", "Total assets"]
    (by intro t; simp only [List.map_cons, List.map_nil, List.mem_cons,
          List.not_mem_nil]; tauto)

/-! ### Claim C10 (matched label-only rows are returned, not skipped) -/

/-- A fact map in which a label-only row (no numeric value) precedes a row
with the same label carrying a numeric value. -/
def cexC10 : FactMap :=
  [("k1", ⟨some "Total assets", none⟩), ("k2", ⟨some "Total assets", some 7⟩)]

/-- Claim C10 confirmed: on `cexC10` the first fact whose normalized label
matches is the label-only row, and `strictGet` returns its absent value
(unresolved) rather than skipping to the later fact that carries the same
label with the numeric value 7 — even though that later fact is in the map
and matches the target. -/
theorem c10_thm :
    strictGet cexC10 ["Total assets"] = none ∧
    ("k2", (⟨some "Total assets", some 7⟩ : ReportValue)) ∈ cexC10 ∧
    hasTargetB (["Total assets"].map normalizeLabel)
      (⟨some "Total assets", some 7⟩ : ReportValue) = true :=
  ⟨by decide, by decide, by decide⟩

/-! ### Claim C3 (unresolved-sentinel propagation) -/

/-- Claim C3 is false on the code: on the empty fact map nothing can
resolve, yet `extractMetrics` returns the default number 0 for both revenue
and net income (its output type carries no sentinel at all), where the
spec's sentinel-propagating extractor (`extractMetricsSpecModel`) returns
an explicit unresolved for both. -/
theorem c3_counterexample :
    extractMetrics [] = (0, 0) ∧ extractMetricsSpecModel [] = (none, none) :=
  ⟨rfl, rfl⟩

/-- Claim C3 amended: `getTagValue` and `strictGet` do propagate an explicit
unresolved sentinel — whenever they return a number, some fact of the map
genuinely carries that number — but the metric extractor substitutes the
default zero for unresolved revenue and net income: each of its components
is either a value genuinely present in the map or the number 0. -/
theorem c3_amended (m : FactMap) (tags labels : List String) :
    (∀ v : ℚ, getTagValue m tags = some v → ∃ p ∈ m, p.2.value = some v) ∧
    (∀ v : ℚ, strictGet m labels = some v → ∃ p ∈ m, p.2.value = some v) ∧
    ((extractMetrics m).1 = 0 ∨
      ∃ p ∈ m, p.2.value = some (extractMetrics m).1) ∧
    ((extractMetrics m).2 = 0 ∨
      ∃ p ∈ m, p.2.value = some (extractMetrics m).2) := by
  refine ⟨fun v => getTagValue_mem m tags v,
    fun v => strictGet_mem m labels v, ?_, ?_⟩
  · rcases extractOneMetric_zero_or_mem (normEntries m) revenueKeys
      revenueKeywords with h | ⟨e, he, hv⟩
    · exact Or.inl h
    · obtain ⟨p, hp, hpe⟩ := normEntries_mem m e he
      exact Or.inr ⟨p, hp, by rw [hpe]; exact hv⟩
  · rcases extractOneMetric_zero_or_mem (normEntries m) incomeKeys
      incomeKeywords with h | ⟨e, he, hv⟩
    · exact Or.inl h
    · obtain ⟨p, hp, hpe⟩ := normEntries_mem m e he
      exact Or.inr ⟨p, hp, by rw [hpe]; exact hv⟩

/-- A one-fact map for the C3 witness. -/
def wmC3 : FactMap := [("us-gaap_Assets", ⟨none, some 4⟩)]

/-- Witness for the amended C3: the genuineness part applied at a concrete
map where `getTagValue` resolves 4. -/
theorem c3_witness : ∃ p ∈ wmC3, p.2.value = some 4 :=
  (c3_amended wmC3 ["us-gaap_Assets"] []).1 4 (by decide)

/-! ### Claim C4 (concept resolution and zero-triggered fallback) -/

/-- A fact map whose first-priority net-income concept key is present but
carries no numeric value, while a later-priority concept key carries 7; no
label matches the keyword fallback. -/
def cexC4 : FactMap :=
  [("us-gaap_NetIncomeLoss", ⟨some "header", none⟩),
   ("us-gaap_ProfitLoss", ⟨none, some 7⟩)]

/-- Claim C4 is false on the code: the concept stage of `extractMetrics`
stops at the first candidate whose key is present even when its value is
absent — it does not move on to the later candidate with the numeric value
7 — so net income comes out as the 0 default, while the claimed
first-candidate-with-a-numeric-value procedure yields 7. -/
theorem c4_counterexample :
    (extractMetrics cexC4).2 = 0 ∧
    (extractMetricsSpecModel cexC4).2 = some 7 :=
  ⟨rfl, rfl⟩

/-- Claim C4 amended: the concept stage takes the first candidate whose
normalized key is present (also under the `defref_` alternate form),
regardless of whether its value is numeric — an absent value yields the 0
default — and the keyword fallback over labels runs exactly when the
concept stage leaves the metric at 0: when no candidate key is present,
when the winning candidate's value is absent, and when it is exactly 0. -/
theorem c4_amended (m : FactMap) :
    (∀ (item : ReportValue) (v : ℚ),
      findByKeys (normEntries m) incomeKeys = some item → item.value = some v →
      v ≠ 0 → (extractMetrics m).2 = v) ∧
    (∀ item : ReportValue,
      findByKeys (normEntries m) incomeKeys = some item →
      item.value.getD 0 = 0 →
      (extractMetrics m).2 = fallbackScan incomeKeywords 0 (normEntries m)) ∧
    (findByKeys (normEntries m) incomeKeys = none →
      (extractMetrics m).2 = fallbackScan incomeKeywords 0 (normEntries m)) ∧
    (∀ (item : ReportValue) (v : ℚ),
      findByKeys (normEntries m) revenueKeys = some item → item.value = some v →
      v ≠ 0 → (extractMetrics m).1 = v) ∧
    (∀ item : ReportValue,
      findByKeys (normEntries m) revenueKeys = some item →
      item.value.getD 0 = 0 →
      (extractMetrics m).1 = fallbackScan revenueKeywords 0 (normEntries m)) ∧
    (findByKeys (normEntries m) revenueKeys = none →
      (extractMetrics m).1 = fallbackScan revenueKeywords 0 (normEntries m)) := by
  refine ⟨?_, ?_, ?_, ?_, ?_, ?_⟩
  · intro item v h1 h2 h3
    show extractOneMetric (normEntries m) incomeKeys incomeKeywords = v
    unfold extractOneMetric
    simp [h1, h2, h3]
  · intro item h1 h2
    show extractOneMetric (normEntries m) incomeKeys incomeKeywords = _
    unfold extractOneMetric
    simp [h1, h2]
  · intro h1
    show extractOneMetric (normEntries m) incomeKeys incomeKeywords = _
    unfold extractOneMetric
    simp [h1]
  · intro item v h1 h2 h3
    show extractOneMetric (normEntries m) revenueKeys revenueKeywords = v
    unfold extractOneMetric
    simp [h1, h2, h3]
  · intro item h1 h2
    show extractOneMetric (normEntries m) revenueKeys revenueKeywords = _
    unfold extractOneMetric
    simp [h1, h2]
  · intro h1
    show extractOneMetric (normEntries m) revenueKeys revenueKeywords = _
    unfold extractOneMetric
    simp [h1]

/-- A one-fact map for the C4 witness: only the second-priority net-income
concept key is present, with value 7. -/
def wmC4 : FactMap := [("us-gaap_ProfitLoss", ⟨none, some 7⟩)]

/-- Witness for the amended C4: the non-zero concept-stage value 7 wins and
suppresses the fallback. -/
theorem c4_witness : (extractMetrics wmC4).2 = 7 :=
  (c4_amended wmC4).1 ⟨none, some 7⟩ 7 (by decide) rfl (by norm_num)

/-! ### Claim C1 (balance-sheet identity derivation) -/

/-- A fact map resolving explicit liabilities (3) and explicit equity (5)
but no assets. -/
def cexC1 : FactMap :=
  [("us-gaap_Liabilities", ⟨some "Total liabilities", some 3⟩),
   ("us-gaap_StockholdersEquity", ⟨some "Equity line", some 5⟩)]

/-- Claim C1 is false on the code: on `cexC1` two of the three metrics
(liabilities and equity) are independently resolved, yet after the
derivation rules assets remain unresolved — the code never derives assets
from liabilities and equity — so the identity cannot hold on the resulting
three values. -/
theorem c1_counterexample :
    getTagValue cexC1 liabilityTags = some 3 ∧
    getTagValue cexC1 equityTags = some 5 ∧
    balanceMetrics cexC1 = (none, some 3, some 5) ∧
    ∀ a l e : ℚ, balanceMetrics cexC1 ≠ (some a, some l, some e) := by
  refine ⟨by decide, by decide, by decide, ?_⟩
  intro a l e h
  have h1 := congrArg (fun t => t.1) h
  rw [show balanceMetrics cexC1 = ((none : Option ℚ), some 3, some 5) from
    by decide] at h1
  simp at h1

/-- Claim C1 amended: with assets, explicit liabilities and explicit equity
resolved independently (assets by exact label, the other two by concept
tag): equity is derived as assets - liabilities exactly when it is
unresolved while both others resolve, and liabilities are the explicit line
when resolved, else derived as assets - equity; in both derived cases the
identity holds. But assets are never derived: when they are unresolved the
other two pass through untouched (so two resolved metrics without assets
establish no identity), when all three resolve independently they are
returned as-is with no identity enforced, and with fewer than two resolved
every unresolved metric stays unresolved. -/
theorem c1_amended (m : FactMap) :
    (∀ a l : ℚ, strictGet m assetLabels = some a →
      getTagValue m liabilityTags = some l →
      getTagValue m equityTags = none →
      balanceMetrics m = (some a, some l, some (a - l)) ∧ a = l + (a - l)) ∧
    (∀ a e : ℚ, strictGet m assetLabels = some a →
      getTagValue m liabilityTags = none →
      getTagValue m equityTags = some e →
      balanceMetrics m = (some a, some (a - e), some e) ∧ a = (a - e) + e) ∧
    (strictGet m assetLabels = none →
      balanceMetrics m =
        (none, getTagValue m liabilityTags, getTagValue m equityTags)) ∧
    (∀ a l e : ℚ, strictGet m assetLabels = some a →
      getTagValue m liabilityTags = some l →
      getTagValue m equityTags = some e →
      balanceMetrics m = (some a, some l, some e)) ∧
    (getTagValue m liabilityTags = none → getTagValue m equityTags = none →
      balanceMetrics m = (strictGet m assetLabels, none, none)) := by
  refine ⟨?_, ?_, ?_, ?_, ?_⟩
  · intro a l hA hL hE
    exact ⟨by simp [balanceMetrics, hA, hL, hE], by ring⟩
  · intro a e hA hL hE
    exact ⟨by simp [balanceMetrics, hA, hL, hE], by ring⟩
  · intro hA
    cases hE : getTagValue m equityTags <;>
      cases hL : getTagValue m liabilityTags <;>
        simp [balanceMetrics, hA, hE, hL]
  · intro a l e hA hL hE
    simp [balanceMetrics, hA, hL, hE]
  · intro hL hE
    cases hA : strictGet m assetLabels <;>
      simp [balanceMetrics, hA, hL, hE]

/-- A fact map resolving assets (10) and explicit liabilities (3), with no
explicit equity line. -/
def wmC1 : FactMap :=
  [("a1", ⟨some "Total assets", some 10⟩),
   ("us-gaap_Liabilities", ⟨some "Total liabilities", some 3⟩)]

/-- Witness for the amended C1: equity is derived as 10 - 3 = 7 and the
identity holds. -/
theorem c1_witness :
    balanceMetrics wmC1 = (some 10, some 3, some 7) ∧ (10 : ℚ) = 3 + 7 := by
  have h := (c1_amended wmC1).1 10 3 (by decide) (by decide) (by decide)
  refine ⟨?_, by norm_num⟩
  rw [h.1]
  norm_num

/-! ### Claim C9 (division-by-zero guarding in ratios) -/

/-- Claim C9 confirmed: net profit margin is unresolved whenever revenue is
0 (the value unresolved metrics collapse to) and resolved exactly when
revenue is non-zero; the effective tax rate is resolved exactly when both
operands are resolved with a non-zero pre-tax income; book value per share
is resolved exactly when equity and share count are resolved with a
strictly positive share count — every division is guarded by a non-zero
denominator. -/
theorem c9_thm (rev ni : ℚ) (tax pre eqv pref sh : Option ℚ) :
    netProfitMargin 0 ni = none ∧
    ((netProfitMargin rev ni).isSome ↔ rev ≠ 0) ∧
    ((effectiveTaxRate tax pre).isSome ↔
      ∃ t p : ℚ, tax = some t ∧ pre = some p ∧ p ≠ 0) ∧
    ((bookValuePerShare eqv pref sh).isSome ↔
      ∃ e s : ℚ, eqv = some e ∧ sh = some s ∧ 0 < s) := by
  refine ⟨by simp [netProfitMargin], ?_, ?_, ?_⟩
  · by_cases hr : rev = 0 <;> simp [netProfitMargin, hr]
  · cases tax with
    | none => simp [effectiveTaxRate]
    | some t =>
      cases pre with
      | none => simp [effectiveTaxRate]
      | some p => by_cases hp : p = 0 <;> simp [effectiveTaxRate, hp]
  · cases eqv with
    | none => simp [bookValuePerShare]
    | some e =>
      cases sh with
      | none => simp [bookValuePerShare]
      | some s => by_cases hs : 0 < s <;> simp [bookValuePerShare, hs]

/-- Witness for C9: zero revenue yields an unresolved margin, not a number. -/
theorem c9_witness : netProfitMargin 0 5 = none :=
  (c9_thm 0 5 none none none none none).1

/-! ### Claim C7 (report period selection) -/

/-- Claim C7 confirmed: a report matches exactly when the third
dash-separated field of its period-end date parses to the target year;
the selected report is the first match in array order (so unique when
exactly one matches, deterministic when several match); and when none
match the selection is unresolved and the chart row falls back to the
empty fact map, producing the zero-extracted metrics without failing. -/
theorem c7_thm (rs : List IncomeReport) (y : Int) :
    selectReport rs y = (rs.filter (matchesYear y)).head? ∧
    (∀ r : IncomeReport, matchesYear y r = true ↔
      ∃ p : List Char, (splitOnDash r.date.data).get? 2 = some p ∧
        parseIntJS p = some y) ∧
    (rs.filter (matchesYear y) = [] →
      selectReport rs y = none ∧ chartPoint rs y = (0, 0)) := by
  refine ⟨find_eq_filterHead _ rs, ?_, ?_⟩
  · intro r
    unfold matchesYear
    cases hg : (splitOnDash r.date.data).get? 2 with
    | none => simp
    | some p => simp [beq_iff_eq]
  · intro hf
    have hs : selectReport rs y = none := by
      unfold selectReport
      rw [find_eq_filterHead _ rs, hf]
      rfl
    refine ⟨hs, ?_⟩
    unfold chartPoint
    rw [hs]
    rfl

/-- The first example report of spec section 8 (period end 31-12-2021). -/
def exReport1 : IncomeReport := ⟨"31-12-2021", 12, []⟩

/-- The second example report of spec section 8 (period end 30-06-2021). -/
def exReport2 : IncomeReport := ⟨"30-06-2021", 6, []⟩

/-- Witness for C7: both example reports match 2021 and the first in array
order is selected; with no reports the chart row degrades to zeros. -/
theorem c7_witness :
    selectReport [exReport1, exReport2] 2021 = some exReport1 ∧
    chartPoint [] 2021 = (0, 0) := by
  constructor
  · rw [(c7_thm [exReport1, exReport2] 2021).1]
    decide
  · exact ((c7_thm [] 2021).2.2 rfl).2

/-! ### Claim C8 (malformed statement JSON) -/

/-- Modelled from the spec (§7 MalformedPeriodJSON): the claimed behavior
treats a statement string that fails to parse as "no reports available" for
that statement type, still producing a chart row. -/
def chartRowSpecModel (year : Int)
    (stmt : Except Unit (List IncomeReport)) : Int × ℚ × ℚ :=
  let parsed :=
    match stmt with
    | Except.ok l => l
    | Except.error _ => []
  let p := chartPoint parsed year
  (year, p.1, p.2)

/-- Claim C8 is false on the code: the source calls `JSON.parse` with no
`try`/`catch`, so on a statement whose parse fails the per-row computation
propagates the exception instead of producing a "no reports available" row
— whereas the claimed behavior (`chartRowSpecModel`) yields the
zero-metrics row. -/
theorem c8_counterexample :
    chartRowE 2021 (Except.error ()) = Except.error () ∧
    chartRowSpecModel 2021 (Except.error ()) = (2021, 0, 0) ∧
    ∀ out : Int × ℚ × ℚ, chartRowE 2021 (Except.error ()) ≠ Except.ok out := by
  refine ⟨rfl, rfl, ?_⟩
  intro out h
  cases h

/-- Claim C8 amended: a statement-JSON parse failure is NOT caught — the
exception propagates out of the per-row chart computation unchanged — while
a successfully parsed statement produces the ordinary row; only a missing
or non-matching report (not a parse failure) is treated as "no data". -/
theorem c8_amended (y : Int) (e : Unit) (rs : List IncomeReport) :
    chartRowE y (Except.error e) = Except.error e ∧
    chartRowE y (Except.ok rs) =
      Except.ok (y, (chartPoint rs y).1, (chartPoint rs y).2) :=
  ⟨rfl, rfl⟩

/-! ### Claim C5 (share-count unit scaling) -/

/-- Claim C5 confirmed: for a label on which pattern 1, 2, 3 or 5 fires with
a successful parse, the extracted count is multiplied by 1,000,000 exactly
when the label lacks the `in shares` marker and used unscaled when it has
it; for the dual-count pattern 1 the larger of the two parsed counts is
taken before scaling.  The priority hypotheses record which pattern fires
(earlier patterns must have failed). -/
theorem c5_thm (lab : String) (v : Option ℚ) (hlab : lab ≠ "") :
    (∀ (c1 c2 : List Char) (n1 n2 : ℕ),
      matchP1 (cleanLower lab) = some (c1, c2) →
      parseNum c1 = some n1 → parseNum c2 = some n2 →
      shareFromItem ⟨some lab, v⟩ =
        some (some (if inSharesFlag lab then ((max n1 n2 : ℕ) : ℚ)
                    else ((max n1 n2 : ℕ) : ℚ) * 1000000))) ∧
    (∀ (c : List Char) (n : ℕ),
      matchP1 (cleanLower lab) = none →
      matchP2 (cleanLower lab) = some c → parseNum c = some n →
      shareFromItem ⟨some lab, v⟩ =
        some (some (if inSharesFlag lab then (n : ℚ)
                    else (n : ℚ) * 1000000))) ∧
    (∀ (c : List Char) (n : ℕ),
      matchP1 (cleanLower lab) = none →
      matchP2 (cleanLower lab) = none →
      containsChars (cleanLower lab) ("authorized".data) = false →
      matchP3 (cleanLower lab) = some c → parseNum c = some n →
      shareFromItem ⟨some lab, v⟩ =
        some (some (if inSharesFlag lab then (n : ℚ)
                    else (n : ℚ) * 1000000))) ∧
    (∀ (c : List Char) (n : ℕ),
      matchP1 (cleanLower lab) = none →
      matchP2 (cleanLower lab) = none →
      (containsChars (cleanLower lab) ("authorized".data) = true ∨
        matchP3 (cleanLower lab) = none) →
      (containsChars (cleanLower lab) ("shares outstanding".data) &&
        inSharesFlag lab) = false →
      matchP5 (cleanLower lab) = some c → parseNum c = some n →
      shareFromItem ⟨some lab, v⟩ =
        some (some (if inSharesFlag lab then (n : ℚ)
                    else (n : ℚ) * 1000000))) := by
  refine ⟨?_, ?_, ?_, ?_⟩
  · intro c1 c2 n1 n2 h1 hp1 hp2
    unfold shareFromItem
    simp [hlab, h1, hp1, hp2, shareScale_eq]
  · intro c n h1 h2 hp
    unfold shareFromItem
    simp [hlab, h1, h2, hp, shareScale_eq]
  · intro c n h1 h2 ha h3 hp
    unfold shareFromItem
    simp [hlab, h1, h2, ha, h3, hp, shareScale_eq]
  · intro c n h1 h2 h34 h4 h5 hp
    have h3 : (if containsChars (cleanLower lab) ("authorized".data) = true
        then none else matchP3 (cleanLower lab)) = (none : Option (List Char)) := by
      rcases h34 with ha | hm
      · simp [ha]
      · by_cases ha : containsChars (cleanLower lab) ("authorized".data) = true <;>
          simp [ha, hm]
    unfold shareFromItem
    simp [hlab, h1, h2, h3, h4, h5, hp, shareScale_eq]

/-- The dual-count example label of spec section 8. -/
def exShareLabel : String :=
  "12,211,000 and 12,345,000 shares issued and outstanding"

/-- Witness for C5 at the spec's own example: the larger count 12,345,000 is
taken and scaled by one million since `in shares` is absent. -/
theorem c5_witness :
    shareFromItem ⟨some exShareLabel, none⟩ = some (some 12345000000000) := by
  have h := (c5_thm exShareLabel none (by decide)).1
    ("12,211,000".data) ("12,345,000".data) 12211000 12345000
    (by decide) (by decide) (by decide)
  rw [h, show inSharesFlag exShareLabel = false from by decide]
  norm_num

/-! ### Claim C6 (scan continuation after a parse failure) -/

/-- A fact map whose first label matches pattern 3 with an unparsable
(all-comma) count, followed by a label that would yield 5,000,000. -/
def cexC6 : FactMap :=
  [("k1", ⟨some ",, shares issued and outstanding", none⟩),
   ("k2", ⟨some "5 shares issued and outstanding", none⟩)]

/-- Claim C6 is false on the code: on `cexC6` the first label's matched text
parses as `NaN`, and the extractor returns null immediately instead of
continuing — even though the later label in the map would produce the
successful numeric match 5,000,000. -/
theorem c6_counterexample :
    extractSharesOutstanding cexC6 = none ∧
    shareFromItem ⟨some "5 shares issued and outstanding", none⟩ =
      some (some 5000000) ∧
    ("k2", (⟨some "5 shares issued and outstanding", none⟩ : ReportValue)) ∈
      cexC6 :=
  ⟨by decide, by decide, by decide⟩

/-- Claim C6 amended: the extractor continues scanning only past labels on
which NO pattern fires; the first label on which a pattern fires decides
the overall result — its parsed value on success, null on a parse failure
(the scan stops either way).  Equivalently, the result is the first
per-label outcome in map order, flattened. -/
theorem c6_amended (k : String) (item : ReportValue) (rest : FactMap) :
    (shareFromItem item = none →
      extractSharesOutstanding ((k, item) :: rest) =
        extractSharesOutstanding rest) ∧
    (∀ r : Option ℚ, shareFromItem item = some r →
      extractSharesOutstanding ((k, item) :: rest) = r) ∧
    (∀ m : FactMap, extractSharesOutstanding m =
      Option.join (m.findSome? (fun p => shareFromItem p.2))) := by
  refine ⟨?_, ?_, ?_⟩
  · intro h
    simp [extractSharesOutstanding, h]
  · intro r h
    simp [extractSharesOutstanding, h]
  · intro m
    induction m with
    | nil => rfl
    | cons p t ih =>
      cases hp : shareFromItem p.2 with
      | none => simp [extractSharesOutstanding, List.findSome?_cons, hp, ih]
      | some r => simp [extractSharesOutstanding, List.findSome?_cons, hp]

/-- Witness for the amended C6: a label with no pattern match is skipped,
and the next label's successful match decides the result. -/
theorem c6_witness :
    extractSharesOutstanding
      [("k1", (⟨some "header row", none⟩ : ReportValue)),
       ("k2", ⟨some "5 shares issued and outstanding", none⟩)] =
      some 5000000 := by
  have h1 := (c6_amended "k1" ⟨some "header row", none⟩
    [("k2", ⟨some "5 shares issued and outstanding", none⟩)]).1 (by decide)
  have h2 := (c6_amended "k2" ⟨some "5 shares issued and outstanding", none⟩
    []).2.1 (some 5000000) (by decide)
  rw [h1, h2]

end Fiscal
